import Mathlib

/-!
Verification of the UCRA Rust binding layer (safe wrapper over the raw ABI).

The definitions below are a shallow embedding of
src/bindings/rust/ucra/src/lib.rs and
src/bindings/rust/ucra/examples/emit_wav.rs.

Modelling conventions:
* machine integers are `Nat` or `Int` with explicit reductions modulo
  2 ^ 32 or 2 ^ 64 where the Rust code performs a wrapping cast;
* raw pointers are modelled by the value they point to, with `Option`
  (or a Bool flag plus an abstract memory function) standing for
  nullability;
* panics (assert) and fallible operations are modelled with `Option`
  and `Except`.
-/

deriving instance DecidableEq for Except

/-- The wrapper error enum, mirroring `pub enum Error` in lib.rs.
`Unknown` carries the raw result code as a signed 32-bit value. -/
inductive Error where
  | InvalidArgument
  | OutOfMemory
  | NotSupported
  | Internal
  | FileNotFound
  | InvalidJson
  | InvalidManifest
  | Unknown : Int → Error
deriving DecidableEq, Repr

/-- The wrapping cast `code as u32` applied to a signed 32-bit value,
yielding the unsigned 32-bit bit pattern. -/
def u32cast (code : Int) : Nat :=
  (code % 4294967296).toNat

/-- The wrapping cast `other as i32` applied to an unsigned 32-bit value. -/
def i32ofU32 (n : Nat) : Int :=
  if n < 2147483648 then (n : Int) else (n : Int) - 4294967296

/-- The match arm structure of `check` after the `as u32` cast. -/
def checkU (n : Nat) : Except Error Unit :=
  match n with
  | 0 => .ok ()
  | 1 => .error .InvalidArgument
  | 2 => .error .OutOfMemory
  | 3 => .error .NotSupported
  | 4 => .error .Internal
  | 5 => .error .FileNotFound
  | 6 => .error .InvalidJson
  | 7 => .error .InvalidManifest
  | other => .error (.Unknown (i32ofU32 other))

/-- `fn check(code: sys::UCRA_Result) -> Result<()>` from lib.rs.
The argument is the signed 32-bit result code returned by a foreign call. -/
def check (code : Int) : Except Error Unit :=
  checkU (u32cast code)

/-- Reduction of `checkU` on any value at least 8 (the fallback arm). -/
theorem checkU_fallback (m : Nat) :
    checkU (m + 8) = .error (.Unknown (i32ofU32 (m + 8))) := rfl

/-- On the signed 32-bit range, the `as u32` and `as i32` casts are
mutually inverse. -/
theorem i32ofU32_u32cast (code : Int) (h1 : -2147483648 ≤ code)
    (h2 : code < 2147483648) : i32ofU32 (u32cast code) = code := by
  unfold i32ofU32 u32cast
  split <;> omega

/-- On the signed 32-bit range, `u32cast` hits a value below 8 exactly on
the codes 0 through 7 themselves. -/
theorem u32cast_small (code : Int) (h1 : -2147483648 ≤ code)
    (h2 : code < 2147483648) (h3 : ¬(0 ≤ code ∧ code < 8)) :
    8 ≤ u32cast code := by
  unfold u32cast
  omega

/-- Any signed 32-bit code outside 0 through 7 maps to `Unknown` carrying
the code itself. -/
theorem check_unknown (code : Int) (h1 : -2147483648 ≤ code)
    (h2 : code < 2147483648) (h3 : ¬(0 ≤ code ∧ code < 8)) :
    check code = .error (.Unknown code) := by
  obtain ⟨m, hm⟩ : ∃ m, u32cast code = m + 8 :=
    ⟨u32cast code - 8, by have := u32cast_small code h1 h2 h3; omega⟩
  show checkU (u32cast code) = _
  rw [hm, checkU_fallback, ← hm, i32ofU32_u32cast code h1 h2]

/-- C1: `check` is total on signed 32-bit result codes and maps exactly as
documented: 0 is success, 1 through 7 map to the seven named error kinds in
order, every other value maps to `Unknown` carrying the raw value unchanged,
and no code other than 0 maps to success. -/
theorem check_error_mapping :
    check 0 = .ok () ∧
    check 1 = .error .InvalidArgument ∧
    check 2 = .error .OutOfMemory ∧
    check 3 = .error .NotSupported ∧
    check 4 = .error .Internal ∧
    check 5 = .error .FileNotFound ∧
    check 6 = .error .InvalidJson ∧
    check 7 = .error .InvalidManifest ∧
    (∀ code : Int, -2147483648 ≤ code → code < 2147483648 →
      ¬(0 ≤ code ∧ code < 8) → check code = .error (.Unknown code)) ∧
    (∀ code : Int, -2147483648 ≤ code → code < 2147483648 →
      check code = .ok () → code = 0) := by
  refine ⟨by decide, by decide, by decide, by decide, by decide, by decide,
    by decide, by decide, check_unknown, ?_⟩
  intro code h1 h2 hok
  by_contra hne
  rcases Decidable.em (0 ≤ code ∧ code < 8) with hc | hc
  · have hb1 : 1 ≤ code := by omega
    have hb2 : code ≤ 7 := by omega
    interval_cases code <;> exact absurd hok (by decide)
  · rw [check_unknown code h1 h2 hc] at hok
    exact Except.noConfusion hok

/-- Concrete instantiation of the unknown-code and success-only-at-zero
clauses of the mapping theorem. -/
theorem check_error_mapping_witness :
    check 9 = .error (.Unknown 9) ∧ check (-3) = .error (.Unknown (-3)) :=
  ⟨check_error_mapping.2.2.2.2.2.2.2.2.1 9 (by decide) (by decide) (by decide),
   check_error_mapping.2.2.2.2.2.2.2.2.1 (-3) (by decide) (by decide)
     (by decide)⟩

/-- The raw pitch curve struct `sys::UCRA_F0Curve`. The two pointer fields
are modelled by the borrowed slices they point to; `length` is the u32
length field. -/
structure UCRA_F0Curve where
  time_sec : List Float
  f0_hz : List Float
  length : Nat

/-- The raw envelope curve struct `sys::UCRA_EnvCurve`, modelled like
`UCRA_F0Curve`. -/
structure UCRA_EnvCurve where
  time_sec : List Float
  value : List Float
  length : Nat

/-- The safe wrapper type `F0Curve`, holding a raw struct (the lifetime
phantom is erased by the embedding). -/
structure F0Curve where
  raw : UCRA_F0Curve

/-- The safe wrapper type `EnvCurve`. -/
structure EnvCurve where
  raw : UCRA_EnvCurve

/-- `F0Curve::new` from lib.rs. The source asserts that both slices have
the same length (a panic on mismatch), modelled by returning `none`; the
stored length field is the wrapping `as u32` cast of the slice length. -/
def F0Curve.new (time_sec f0_hz : List Float) : Option F0Curve :=
  if time_sec.length = f0_hz.length then
    some ⟨⟨time_sec, f0_hz, time_sec.length % 4294967296⟩⟩
  else
    none

/-- `EnvCurve::new` from lib.rs, modelled like `F0Curve::new`. -/
def EnvCurve.new (time_sec value : List Float) : Option EnvCurve :=
  if time_sec.length = value.length then
    some ⟨⟨time_sec, value, time_sec.length % 4294967296⟩⟩
  else
    none

/-- The raw note struct `sys::UCRA_NoteSegment`. The `lyric` pointer is
modelled by the optional C string it points to (`none` is the null
pointer); the curve pointers by the optional raw structs they point to. -/
structure UCRA_NoteSegment where
  start_sec : Float
  duration_sec : Float
  midi_note : Int
  velocity : Nat
  lyric : Option String
  f0_override : Option UCRA_F0Curve
  env_override : Option UCRA_EnvCurve

/-- The safe wrapper type `NoteSegment`. -/
structure NoteSegment where
  start_sec : Float
  duration_sec : Float
  midi_note : Int
  velocity : Nat
  lyric : Option String
  f0_override : Option F0Curve
  env_override : Option EnvCurve

/-- The conversion `From<&NoteSegment> for sys::UCRA_NoteSegment` in
lib.rs. The source sets `c_lyric` to the null pointer (its comment: avoid
temporary CString leaks for now, pass null lyric), and maps each optional
curve reference to a pointer to its raw struct. -/
def UCRA_NoteSegment.fromNote (n : NoteSegment) : UCRA_NoteSegment :=
  let c_lyric : Option String := none
  { start_sec := n.start_sec
    duration_sec := n.duration_sec
    midi_note := n.midi_note
    velocity := n.velocity
    lyric := c_lyric
    f0_override := n.f0_override.map F0Curve.raw
    env_override := n.env_override.map EnvCurve.raw }

/-- C2 counterexample: the conversion does not preserve the lyric — a note
carrying lyric text converts to a raw note with a null lyric pointer. -/
theorem note_conversion_drops_lyric :
    (UCRA_NoteSegment.fromNote
      { start_sec := 0, duration_sec := 0, midi_note := 0, velocity := 0,
        lyric := some "la", f0_override := none, env_override := none }).lyric
      ≠ some "la" := by
  simp [UCRA_NoteSegment.fromNote]

/-- C2 (amended): the conversion preserves start time, duration, pitch,
velocity and the optional curve references, but always emits a null lyric
pointer, discarding any lyric text. -/
theorem note_conversion_preserves_fields (n : NoteSegment) :
    (UCRA_NoteSegment.fromNote n).start_sec = n.start_sec ∧
    (UCRA_NoteSegment.fromNote n).duration_sec = n.duration_sec ∧
    (UCRA_NoteSegment.fromNote n).midi_note = n.midi_note ∧
    (UCRA_NoteSegment.fromNote n).velocity = n.velocity ∧
    (UCRA_NoteSegment.fromNote n).lyric = none ∧
    (UCRA_NoteSegment.fromNote n).f0_override = n.f0_override.map F0Curve.raw ∧
    (UCRA_NoteSegment.fromNote n).env_override
      = n.env_override.map EnvCurve.raw :=
  ⟨rfl, rfl, rfl, rfl, rfl, rfl, rfl⟩

/-- C6: a curve can be constructed exactly when the time and value slices
have equal length, and the stored raw length field equals that common
length (for any slice in u32 range). -/
theorem curve_new_length_invariant :
    (∀ t v : List Float, (F0Curve.new t v).isSome ↔ t.length = v.length) ∧
    (∀ t v : List Float, (EnvCurve.new t v).isSome ↔ t.length = v.length) ∧
    (∀ (t v : List Float) (c : F0Curve), F0Curve.new t v = some c →
      t.length < 4294967296 →
      c.raw.length = t.length ∧ c.raw.length = v.length) ∧
    (∀ (t v : List Float) (c : EnvCurve), EnvCurve.new t v = some c →
      t.length < 4294967296 →
      c.raw.length = t.length ∧ c.raw.length = v.length) := by
  refine ⟨?_, ?_, ?_, ?_⟩ <;> intro t v
  · unfold F0Curve.new; split <;> simp_all
  · unfold EnvCurve.new; split <;> simp_all
  · intro c hc hlen
    unfold F0Curve.new at hc
    split at hc
    · cases hc
      constructor <;> simp_all [Nat.mod_eq_of_lt]
    · exact Option.noConfusion hc
  · intro c hc hlen
    unfold EnvCurve.new at hc
    split at hc
    · cases hc
      constructor <;> simp_all [Nat.mod_eq_of_lt]
    · exact Option.noConfusion hc

/-- Concrete instantiation of the curve length invariant on singleton
slices. -/
theorem curve_new_length_invariant_witness :
    ((1 : Nat) = 1 ∧ (1 : Nat) = 1) ∧ ((1 : Nat) = 1 ∧ (1 : Nat) = 1) :=
  ⟨curve_new_length_invariant.2.2.1 [(1 : Float)] [(2 : Float)]
      ⟨⟨[(1 : Float)], [(2 : Float)], 1⟩⟩ rfl (by decide),
   curve_new_length_invariant.2.2.2 [(1 : Float)] [(2 : Float)]
      ⟨⟨[(1 : Float)], [(2 : Float)], 1⟩⟩ rfl (by decide)⟩

/-- The raw config struct `sys::UCRA_RenderConfig`. The notes pointer is
modelled by the array it points to; the options pointer (always null in
this wrapper) by a Bool flag. -/
structure UCRA_RenderConfig where
  sample_rate : Nat
  channels : Nat
  block_size : Nat
  flags : Nat
  notes : List UCRA_NoteSegment
  note_count : Nat
  optionsNull : Bool
  option_count : Nat

/-- The safe wrapper type `RenderConfig`: the raw struct plus the owned
converted note array that keeps the raw pointer alive. -/
structure RenderConfig where
  raw : UCRA_RenderConfig
  c_notes : List UCRA_NoteSegment

/-- `RenderConfig::new` from lib.rs: converts the borrowed notes into an
owned raw array, stores its length as u32, zeroes block size and flags, and
leaves the options pointer null with option count 0. -/
def RenderConfig.new (sample_rate channels : Nat)
    (notes : List NoteSegment) : RenderConfig :=
  let c_notes := notes.map UCRA_NoteSegment.fromNote
  { raw :=
    { sample_rate := sample_rate
      channels := channels
      block_size := 0
      flags := 0
      notes := c_notes
      note_count := c_notes.length % 4294967296
      optionsNull := true
      option_count := 0 }
    c_notes := c_notes }

/-- C9: the constructed raw config carries exactly the given sample rate
and channel count, its note count is the length of the note slice (u32
range), block size and flags are 0, and the options sequence is empty:
null pointer, option count 0. -/
theorem render_config_new_fields (sample_rate channels : Nat)
    (notes : List NoteSegment) (hlen : notes.length < 4294967296) :
    (RenderConfig.new sample_rate channels notes).raw.sample_rate
        = sample_rate ∧
    (RenderConfig.new sample_rate channels notes).raw.channels = channels ∧
    (RenderConfig.new sample_rate channels notes).raw.note_count
        = notes.length ∧
    (RenderConfig.new sample_rate channels notes).raw.block_size = 0 ∧
    (RenderConfig.new sample_rate channels notes).raw.flags = 0 ∧
    (RenderConfig.new sample_rate channels notes).raw.optionsNull = true ∧
    (RenderConfig.new sample_rate channels notes).raw.option_count = 0 ∧
    (RenderConfig.new sample_rate channels notes).raw.notes
        = notes.map UCRA_NoteSegment.fromNote := by
  refine ⟨rfl, rfl, ?_, rfl, rfl, rfl, rfl, rfl⟩
  show (notes.map UCRA_NoteSegment.fromNote).length % 4294967296 = _
  rw [List.length_map, Nat.mod_eq_of_lt hlen]

/-- Concrete instantiation of the config constructor theorem on the empty
note slice. -/
theorem render_config_new_fields_witness :
    (RenderConfig.new 44100 1 []).raw.sample_rate = 44100 ∧
    (RenderConfig.new 44100 1 []).raw.channels = 1 ∧
    (RenderConfig.new 44100 1 []).raw.note_count = 0 ∧
    (RenderConfig.new 44100 1 []).raw.block_size = 0 ∧
    (RenderConfig.new 44100 1 []).raw.flags = 0 ∧
    (RenderConfig.new 44100 1 []).raw.optionsNull = true ∧
    (RenderConfig.new 44100 1 []).raw.option_count = 0 ∧
    (RenderConfig.new 44100 1 []).raw.notes = [] :=
  render_config_new_fields 44100 1 [] (by decide)

/-- The raw result struct `sys::UCRA_RenderResult`. The sample pointer is
modelled by the memory it points to (`none` is the null pointer; `some mem`
gives the f32 value at each index). -/
structure UCRA_RenderResult where
  pcm : Option (Nat → Float)
  frames : Nat
  channels : Nat
  sample_rate : Nat

/-- A zeroed `MaybeUninit<sys::UCRA_RenderResult>`: all-zero bytes, so a
null sample pointer and zero counts. -/
def zeroRenderResult : UCRA_RenderResult :=
  { pcm := none, frames := 0, channels := 0, sample_rate := 0 }

/-- `RenderResult::pcm` from lib.rs: null pointer or zero frames yields
`None`; otherwise a slice view of length `frames * channels` (wrapping
usize product) over the pointed-to memory. -/
def RenderResult.pcm (r : UCRA_RenderResult) : Option (List Float) :=
  if r.pcm.isNone || r.frames == 0 then none
  else
    some ((List.range ((r.frames * r.channels) % 18446744073709551616)).map
      (r.pcm.getD (fun _ => 0)))

/-- C10: the sample accessor returns `None` exactly when the raw pointer
is null or the frame count is zero, and a zero-frame result yields `None`
for every possible pointed-to memory — the pointer is never consulted. -/
theorem pcm_none_iff (r : UCRA_RenderResult) :
    (RenderResult.pcm r = none ↔ r.pcm = none ∨ r.frames = 0) ∧
    (∀ mem : Nat → Float, r.frames = 0 →
      RenderResult.pcm { r with pcm := some mem } = none) := by
  constructor
  · unfold RenderResult.pcm
    rcases r with ⟨p, f, c, s⟩
    rcases p with _ | mem <;> simp
  · intro mem hf
    unfold RenderResult.pcm
    simp [hf]

/-- Concrete instantiation of the none-result clauses on a zero-frame
result with a non-null pointer. -/
theorem pcm_none_iff_witness :
    RenderResult.pcm
      { zeroRenderResult with pcm := some (fun _ => (7 : Float)) } = none :=
  (pcm_none_iff zeroRenderResult).2 (fun _ => (7 : Float)) rfl

/-- C5: on a non-null pointer and positive frame count, the sample view
has length `frames * channels` (for any product in usize range). -/
theorem pcm_length (r : UCRA_RenderResult) (mem : Nat → Float)
    (hp : r.pcm = some mem) (hf : 0 < r.frames)
    (hsize : r.frames * r.channels < 18446744073709551616) :
    (RenderResult.pcm r).map List.length = some (r.frames * r.channels) := by
  unfold RenderResult.pcm
  have h0 : (r.frames == 0) = false := by simp; omega
  simp [hp, h0, Nat.mod_eq_of_lt hsize]

/-- Concrete instantiation of the sample view length theorem: two frames,
one channel. -/
theorem pcm_length_witness :
    (RenderResult.pcm
      { pcm := some (fun _ => (0 : Float)), frames := 2, channels := 1,
        sample_rate := 44100 }).map List.length = some 2 :=
  pcm_length _ (fun _ => (0 : Float)) rfl (by decide) (by decide)

/-- A UTF-8 continuation byte, 0x80 through 0xBF. -/
def isCont (b : Nat) : Bool := 128 ≤ b && b ≤ 191

/-- Valid second byte of a three-byte UTF-8 sequence headed by `b0`
(excluding overlong encodings and surrogates, as Rust's validator does). -/
def utf8Second3 (b0 b1 : Nat) : Bool :=
  if b0 == 224 then 160 ≤ b1 && b1 ≤ 191
  else if b0 == 237 then 128 ≤ b1 && b1 ≤ 159
  else isCont b1

/-- Valid second byte of a four-byte UTF-8 sequence headed by `b0`
(excluding overlong encodings and code points beyond 0x10FFFF). -/
def utf8Second4 (b0 b1 : Nat) : Bool :=
  if b0 == 240 then 144 ≤ b1 && b1 ≤ 191
  else if b0 == 244 then 128 ≤ b1 && b1 ≤ 143
  else isCont b1

/-- `String::from_utf8_lossy` as a function from bytes to the decoded
code points: each maximal invalid subpart is replaced by one U+FFFD
(65533), valid sequences decode normally, and decoding never fails. -/
def utf8_lossy : List Nat → List Nat
  | [] => []
  | b0 :: rest =>
    if b0 < 128 then b0 :: utf8_lossy rest
    else if 194 ≤ b0 && b0 ≤ 223 then
      match rest with
      | [] => [65533]
      | b1 :: rest1 =>
        if isCont b1 then ((b0 % 32) * 64 + b1 % 64) :: utf8_lossy rest1
        else 65533 :: utf8_lossy (b1 :: rest1)
    else if 224 ≤ b0 && b0 ≤ 239 then
      match rest with
      | [] => [65533]
      | b1 :: rest1 =>
        if utf8Second3 b0 b1 then
          match rest1 with
          | [] => [65533]
          | b2 :: rest2 =>
            if isCont b2 then
              ((b0 % 16) * 4096 + (b1 % 64) * 64 + b2 % 64)
                :: utf8_lossy rest2
            else 65533 :: utf8_lossy (b2 :: rest2)
        else 65533 :: utf8_lossy (b1 :: rest1)
    else if 240 ≤ b0 && b0 ≤ 244 then
      match rest with
      | [] => [65533]
      | b1 :: rest1 =>
        if utf8Second4 b0 b1 then
          match rest1 with
          | [] => [65533]
          | b2 :: rest2 =>
            if isCont b2 then
              match rest2 with
              | [] => [65533]
              | b3 :: rest3 =>
                if isCont b3 then
                  ((b0 % 8) * 262144 + (b1 % 64) * 4096 + (b2 % 64) * 64
                    + b3 % 64) :: utf8_lossy rest3
                else 65533 :: utf8_lossy (b3 :: rest3)
            else 65533 :: utf8_lossy (b2 :: rest2)
        else 65533 :: utf8_lossy (b1 :: rest1)
    else 65533 :: utf8_lossy rest

/-- `Engine::get_info` from lib.rs after the foreign call: `code` is the
returned result code and `buf` the 128-byte buffer contents the engine
wrote. The code is checked, the buffer truncated at the first null byte
(or taken whole when there is none) and decoded lossily. -/
def get_info (code : Int) (buf : List Nat) : Except Error (List Nat) :=
  match check code with
  | .error e => .error e
  | .ok _ =>
    let nul := buf.findIdx (· == 0)
    .ok (utf8_lossy (buf.take nul))

/-- Taking up to the index of the first zero recovers exactly the
zero-free part before it. -/
theorem take_findIdx_zero (pre post : List Nat) (h : ∀ b ∈ pre, b ≠ 0) :
    (pre ++ 0 :: post).take ((pre ++ 0 :: post).findIdx (· == 0)) = pre := by
  induction pre with
  | nil => simp [List.findIdx_cons]
  | cons a pre ih =>
    have ha : a ≠ 0 := h a (List.mem_cons_self a pre)
    have hpre : ∀ b ∈ pre, b ≠ 0 := fun b hb => h b (List.mem_cons_of_mem a hb)
    simp only [List.cons_append, List.findIdx_cons]
    have : (a == 0) = false := by simp [ha]
    simp [this, ih hpre]

/-- Any nonzero signed 32-bit code maps to some error. -/
theorem check_ne_zero_error (code : Int) (h1 : -2147483648 ≤ code)
    (h2 : code < 2147483648) (h3 : code ≠ 0) :
    ∃ e, check code = .error e := by
  rcases Decidable.em (0 ≤ code ∧ code < 8) with hc | hc
  · have hb1 : 1 ≤ code := by omega
    have hb2 : code ≤ 7 := by omega
    interval_cases code <;>
      first
      | exact ⟨Error.InvalidArgument, by decide⟩
      | exact ⟨Error.OutOfMemory, by decide⟩
      | exact ⟨Error.NotSupported, by decide⟩
      | exact ⟨Error.Internal, by decide⟩
      | exact ⟨Error.FileNotFound, by decide⟩
      | exact ⟨Error.InvalidJson, by decide⟩
      | exact ⟨Error.InvalidManifest, by decide⟩
  · exact ⟨.Unknown code, check_unknown code h1 h2 hc⟩

/-- C3: on a zero result code, `get_info` returns the buffer truncated at
the first null byte, decoded by the total lossy decoder (so an invalid
encoding is replaced, never fatal, and bytes after the null are ignored);
on any nonzero code it returns exactly the mapped error kind. -/
theorem get_info_truncates_and_maps_errors :
    (∀ (code : Int) (buf : List Nat), -2147483648 ≤ code →
      code < 2147483648 → code ≠ 0 →
      ∃ e, check code = .error e ∧ get_info code buf = .error e) ∧
    (∀ pre post : List Nat, (∀ b ∈ pre, b ≠ 0) →
      get_info 0 (pre ++ 0 :: post) = .ok (utf8_lossy pre)) := by
  constructor
  · intro code buf h1 h2 h3
    obtain ⟨e, he⟩ := check_ne_zero_error code h1 h2 h3
    refine ⟨e, he, ?_⟩
    unfold get_info
    rw [he]
  · intro pre post h
    show Except.ok (utf8_lossy ((pre ++ 0 :: post).take
        ((pre ++ 0 :: post).findIdx (· == 0)))) = .ok (utf8_lossy pre)
    rw [take_findIdx_zero pre post h]

/-- Concrete instantiation of the info theorem: the bytes of "Hi" followed
by a null and a trailing byte decode to "Hi", and code 3 maps to the
not-supported kind. -/
theorem get_info_truncates_and_maps_errors_witness :
    get_info 0 [72, 105, 0, 88] = .ok [72, 105] ∧
    get_info 3 [72] = .error Error.NotSupported := by
  constructor
  · have h := get_info_truncates_and_maps_errors.2 [72, 105] [88] (by decide)
    simpa [utf8_lossy] using h
  · obtain ⟨e, he1, he2⟩ := get_info_truncates_and_maps_errors.1 3 [72]
      (by decide) (by decide) (by decide)
    have hc : check 3 = .error Error.NotSupported := by decide
    have h3 := hc.symm.trans he1
    injection h3 with h4
    rw [← h4] at he2
    exact he2

/-- The code path of `Engine::render` after the foreign call returned
`code` and left `slot` in the output location: the code is checked first,
an error short-circuits, otherwise the slot is read and wrapped. -/
def renderCore (code : Int) (slot : UCRA_RenderResult) :
    Except Error UCRA_RenderResult :=
  match check code with
  | .error e => .error e
  | .ok _ => .ok slot

/-- `Engine::render` from lib.rs. The foreign entry point `ucra_render` is
a parameter: it receives the raw config and the zero-initialized output
slot and yields the result code together with the slot contents on
return. -/
def Engine.render
    (ffi : UCRA_RenderConfig → UCRA_RenderResult → Int × UCRA_RenderResult)
    (config : RenderConfig) : Except Error UCRA_RenderResult :=
  let r := ffi config.raw zeroRenderResult
  renderCore r.1 r.2

/-- C4: render passes a zero-initialized slot to the foreign call and
checks the returned code immediately: a success code yields the slot as
result view, an error code yields the mapped error kind and the result
does not depend on the slot contents at all. -/
theorem render_checks_code_short_circuit :
    (∀ ffi config, Engine.render ffi config
      = renderCore (ffi config.raw zeroRenderResult).1
          (ffi config.raw zeroRenderResult).2) ∧
    (∀ code slot, check code = .ok () → renderCore code slot = .ok slot) ∧
    (∀ code slot1 slot2 e, check code = .error e →
      renderCore code slot1 = .error e ∧
      renderCore code slot1 = renderCore code slot2) := by
  refine ⟨fun ffi config => rfl, ?_, ?_⟩
  · intro code slot h
    unfold renderCore
    rw [h]
  · intro code slot1 slot2 e h
    unfold renderCore
    rw [h]
    exact ⟨rfl, rfl⟩

/-- Concrete instantiation of the render short-circuit theorem at codes 0
and 1 and two distinct slot values. -/
theorem render_checks_code_short_circuit_witness :
    renderCore 0 zeroRenderResult = .ok zeroRenderResult ∧
    renderCore 1 zeroRenderResult = .error Error.InvalidArgument ∧
    renderCore 1 zeroRenderResult
      = renderCore 1 { zeroRenderResult with frames := 5 } :=
  ⟨render_checks_code_short_circuit.2.1 0 zeroRenderResult (by decide),
   (render_checks_code_short_circuit.2.2 1 zeroRenderResult
      { zeroRenderResult with frames := 5 } Error.InvalidArgument
      (by decide)).1,
   (render_checks_code_short_circuit.2.2 1 zeroRenderResult
      { zeroRenderResult with frames := 5 } Error.InvalidArgument
      (by decide)).2⟩

/-- The foreign entry points of the raw ABI, as call events. -/
inductive FFICall where
  | create
  | getinfo
  | render
  | destroy
deriving DecidableEq

/-- The wrapper operations available on a live engine handle. -/
inductive EngineOp where
  | opGetInfo
  | opRender
deriving DecidableEq

/-- The foreign calls made by each wrapper operation body in lib.rs:
`get_info` calls `ucra_engine_getinfo` once, `render` calls `ucra_render`
once; neither ever calls `ucra_engine_destroy`. -/
def opCalls : EngineOp → List FFICall
  | .opGetInfo => [.getinfo]
  | .opRender => [.render]

/-- The foreign calls made by `Engine::new`: one `ucra_engine_create`. -/
def newCalls : List FFICall := [.create]

/-- The foreign calls made by the `Drop` impl for `Engine` in lib.rs:
exactly one `ucra_engine_destroy`. -/
def dropCalls : List FFICall := [.destroy]

/-- Modelled from the spec: the scoped-resource release discipline of the
host language is not code under src/, so the scheduling of the drop
handler is taken from the spec's lifecycle rule (handle created once per
wrapper instance, operations only while the wrapper is live, drop handler
run exactly once at teardown on every exit path). An engine's full
foreign-call trace is the creation call, the calls of its operations in
order, then the drop handler's calls. -/
def engineTrace (ops : List EngineOp) : List FFICall :=
  newCalls ++ (ops.map opCalls).flatten ++ dropCalls

/-- No wrapper operation body ever emits a destroy call. -/
theorem destroy_not_mem_opCalls (ops : List EngineOp) :
    FFICall.destroy ∉ (ops.map opCalls).flatten := by
  induction ops with
  | nil => simp
  | cons op ops ih =>
    simp only [List.map_cons, List.flatten_cons, List.mem_append]
    rintro (h | h)
    · cases op <;> simp_all [opCalls]
    · exact ih h

/-- C7: over every operation sequence, the engine's foreign-call trace
begins with the creation call and contains exactly one destroy call, which
is its final event — so the handle is destroyed exactly once, at teardown,
and no call is made on it afterward. -/
theorem engine_destroyed_exactly_once (ops : List EngineOp) :
    (engineTrace ops).count .destroy = 1 ∧
    (engineTrace ops).getLast? = some .destroy ∧
    FFICall.destroy ∉ (engineTrace ops).dropLast ∧
    (engineTrace ops).head? = some .create := by
  have hops := destroy_not_mem_opCalls ops
  have hshape : engineTrace ops
      = (newCalls ++ (ops.map opCalls).flatten) ++ [FFICall.destroy] := by
    simp [engineTrace, dropCalls, List.append_assoc]
  refine ⟨?_, ?_, ?_, ?_⟩
  · rw [hshape, List.count_append]
    have h1 : (newCalls ++ (ops.map opCalls).flatten).count FFICall.destroy
        = 0 := by
      rw [List.count_eq_zero]
      simp only [List.mem_append, newCalls]
      rintro (h | h)
      · simp at h
      · exact hops h
    rw [h1]
    rfl
  · rw [hshape, List.getLast?_concat]
  · rw [hshape, List.dropLast_concat]
    simp only [List.mem_append, newCalls]
    rintro (h | h)
    · simp at h
    · exact hops h
  · rfl

/-- Little-endian byte image of a u16 value (`to_le_bytes`). -/
def le16 (n : Nat) : List Nat := [n % 256, n / 256 % 256]

/-- Little-endian byte image of a u32 value (`to_le_bytes`). -/
def le32 (n : Nat) : List Nat :=
  [n % 256, n / 256 % 256, n / 65536 % 256, n / 16777216 % 256]

/-- `write_wav_float32` from examples/emit_wav.rs: the byte stream written
to the file, for a sample slice of `numSamples` f32 values whose raw
little-endian image is `sampleBytes`. All header arithmetic wraps exactly
as the u16/u32/usize casts in the source do. -/
def write_wav_float32 (sampleBytes : List Nat)
    (numSamples sample_rate channels : Nat) : List Nat :=
  let data_size := numSamples * 4 % 18446744073709551616 % 4294967296
  let file_size := (data_size + 36) % 4294967296
  [82, 73, 70, 70] ++ le32 file_size
    ++ [87, 65, 86, 69]
    ++ [102, 109, 116, 32] ++ le32 16
    ++ le16 3
    ++ le16 (channels % 65536)
    ++ le32 sample_rate
    ++ le32 (sample_rate * channels * 4 % 4294967296)
    ++ le16 (channels * 4 % 4294967296 % 65536)
    ++ le16 32
    ++ [100, 97, 116, 97] ++ le32 data_size
    ++ sampleBytes

/-- Modelled from the spec: the round-trip property's read-back side is
not in the repository, so the header reader follows the spec's container
layout — each field is the little-endian value at its fixed offset. Reads
a 16-bit little-endian field. -/
def readLE16 (bs : List Nat) (off : Nat) : Nat :=
  bs.getD off 0 + 256 * bs.getD (off + 1) 0

/-- Modelled from the spec: reads a 32-bit little-endian header field at a
fixed offset. -/
def readLE32 (bs : List Nat) (off : Nat) : Nat :=
  bs.getD off 0 + 256 * bs.getD (off + 1) 0 + 65536 * bs.getD (off + 2) 0
    + 16777216 * bs.getD (off + 3) 0

/-- C8: reading back the header of a written file reproduces the format
tag 3 (IEEE float), the channel count, the sample rate and the derived
fields exactly: byte rate `sample_rate * channels * 4`, block alignment
`channels * 4`, 32 bits per sample, and data chunk size `4 * numSamples`
(for inputs where the u16/u32 header fields do not wrap). -/
theorem wav_header_roundtrip (sampleBytes : List Nat)
    (numSamples sample_rate channels : Nat)
    (hsr : sample_rate < 4294967296)
    (hch : channels * 4 < 65536)
    (hbr : sample_rate * channels * 4 < 4294967296)
    (hds : numSamples * 4 < 4294967296) :
    readLE16 (write_wav_float32 sampleBytes numSamples sample_rate channels)
        20 = 3 ∧
    readLE16 (write_wav_float32 sampleBytes numSamples sample_rate channels)
        22 = channels ∧
    readLE32 (write_wav_float32 sampleBytes numSamples sample_rate channels)
        24 = sample_rate ∧
    readLE32 (write_wav_float32 sampleBytes numSamples sample_rate channels)
        28 = sample_rate * channels * 4 ∧
    readLE16 (write_wav_float32 sampleBytes numSamples sample_rate channels)
        32 = channels * 4 ∧
    readLE16 (write_wav_float32 sampleBytes numSamples sample_rate channels)
        34 = 32 ∧
    readLE32 (write_wav_float32 sampleBytes numSamples sample_rate channels)
        40 = numSamples * 4 := by
  refine ⟨?_, ?_, ?_, ?_, ?_, ?_, ?_⟩ <;>
    simp [write_wav_float32, le16, le32, readLE16, readLE32] <;> omega

/-- Concrete instantiation of the header round-trip at 44100 Hz, one
channel, two samples. -/
theorem wav_header_roundtrip_witness :
    readLE16 (write_wav_float32 [0, 0, 0, 0, 0, 0, 0, 0] 2 44100 1) 20 = 3 ∧
    readLE16 (write_wav_float32 [0, 0, 0, 0, 0, 0, 0, 0] 2 44100 1) 22 = 1 ∧
    readLE32 (write_wav_float32 [0, 0, 0, 0, 0, 0, 0, 0] 2 44100 1) 24
      = 44100 ∧
    readLE32 (write_wav_float32 [0, 0, 0, 0, 0, 0, 0, 0] 2 44100 1) 28
      = 44100 * 1 * 4 ∧
    readLE16 (write_wav_float32 [0, 0, 0, 0, 0, 0, 0, 0] 2 44100 1) 32
      = 1 * 4 ∧
    readLE16 (write_wav_float32 [0, 0, 0, 0, 0, 0, 0, 0] 2 44100 1) 34 = 32 ∧
    readLE32 (write_wav_float32 [0, 0, 0, 0, 0, 0, 0, 0] 2 44100 1) 40
      = 2 * 4 :=
  wav_header_roundtrip [0, 0, 0, 0, 0, 0, 0, 0] 2 44100 1 (by decide)
    (by decide) (by decide) (by decide)
